import Mathlib

/-!
# Verification of the indicator calculator of `src/app.py`

A shallow embedding of the technical-indicator block of `src/app.py`
(lines 166-211): the 20- and 50-day simple moving averages, the 14-day
RSI, and the truthiness-based display of the three values.

Close prices are modelled as exact rationals (`ℚ`).  The pandas pipeline
(`Series.diff`, `Series.where`, `Series.rolling(...).mean()`, elementwise
arithmetic) operates on float series in which the special values NaN and
±infinity arise (the leading NaN of `diff`, incomplete rolling windows,
and the unguarded division `gain / loss`).  A series cell is therefore a
`FloatVal`: either an exact finite rational or one of the IEEE-754
special values, combined with the IEEE rules on exact values (no rounding
is modelled; the claims under study are about definedness, windows and
exact formulas, which rounding does not affect).
-/

namespace FinStockDash

/-- One cell of a pandas float series: NaN, +∞, −∞, or a finite value
(kept exact as a rational). -/
inductive FloatVal where
  | nan : FloatVal
  | pinf : FloatVal
  | minf : FloatVal
  | fin : ℚ → FloatVal
deriving DecidableEq

/-- IEEE addition on exact values: NaN propagates, ∞ + (−∞) = NaN,
an infinity absorbs finite summands. -/
def fadd : FloatVal → FloatVal → FloatVal
  | .nan, _ => .nan
  | _, .nan => .nan
  | .pinf, .minf => .nan
  | .minf, .pinf => .nan
  | .pinf, _ => .pinf
  | _, .pinf => .pinf
  | .minf, _ => .minf
  | _, .minf => .minf
  | .fin a, .fin b => .fin (a + b)

/-- IEEE negation on exact values. -/
def fneg : FloatVal → FloatVal
  | .nan => .nan
  | .pinf => .minf
  | .minf => .pinf
  | .fin a => .fin (-a)

/-- IEEE subtraction on exact values, `a - b = a + (-b)`. -/
def fsub (a b : FloatVal) : FloatVal := fadd a (fneg b)

/-- IEEE division on exact values: NaN propagates, ∞/∞ = NaN,
finite/∞ = 0, finite/0 is ±∞ by the sign of the numerator and NaN for
0/0 (the zeros produced by this program are all +0, so the divisor zero
is treated as +0). -/
def fdiv : FloatVal → FloatVal → FloatVal
  | .nan, _ => .nan
  | _, .nan => .nan
  | .pinf, .pinf => .nan
  | .pinf, .minf => .nan
  | .minf, .pinf => .nan
  | .minf, .minf => .nan
  | .pinf, .fin b => if 0 ≤ b then .pinf else .minf
  | .minf, .fin b => if 0 ≤ b then .minf else .pinf
  | .fin _, .pinf => .fin 0
  | .fin _, .minf => .fin 0
  | .fin a, .fin b =>
      if b = 0 then (if a = 0 then .nan else if 0 < a then .pinf else .minf)
      else .fin (a / b)

/-- `df['Close'].diff()` (line 182): cell `i` is `Close[i] - Close[i-1]`,
with a NaN (`none`) in cell 0. -/
def diffO (c : List ℚ) : List (Option ℚ) :=
  (List.range c.length).map fun i =>
    if i = 0 then none else some (c.getD i 0 - c.getD (i - 1) 0)

/-- `delta.where(delta > 0, 0)` (line 183): keep a cell where the
condition holds, else 0.  The NaN cell fails the comparison `NaN > 0`,
so it too becomes 0. -/
def gains (c : List ℚ) : List ℚ :=
  (diffO c).map fun d =>
    match d with
    | some q => if 0 < q then q else 0
    | none => 0

/-- `-delta.where(delta < 0, 0)` (line 184): the absolute value of the
negative differences, 0 elsewhere (including the NaN cell). -/
def losses (c : List ℚ) : List ℚ :=
  (diffO c).map fun d =>
    match d with
    | some q => if q < 0 then -q else 0
    | none => 0

/-- Sum of the trailing `w`-cell window of `xs` ending at index `i`
(cells `i+1-w … i`). -/
def windowSum (xs : List ℚ) (i w : ℕ) : ℚ :=
  ((List.range w).map fun k => xs.getD (i + 1 - w + k) 0).sum

/-- `series.rolling(window=w).mean()` on an all-finite series: NaN while
fewer than `w` cells of history exist (index `i` with `i + 1 < w`), and
the arithmetic mean of the trailing `w`-cell window afterwards. -/
def rollingMeanQ (w : ℕ) (xs : List ℚ) : List FloatVal :=
  (List.range xs.length).map fun i =>
    if i + 1 < w then .nan else .fin (windowSum xs i w / w)

/-- `df['Close'].rolling(window=w).mean()` (lines 169 and 175). -/
def movingAverage (w : ℕ) (c : List ℚ) : List FloatVal :=
  rollingMeanQ w c

/-- `100 - (100 / (1 + rs))` applied to one cell of `rs` (line 186). -/
def rsiStep (r : FloatVal) : FloatVal :=
  fsub (.fin 100) (fdiv (.fin 100) (fadd (.fin 1) r))

/-- `df['RSI']` (lines 182-186): `rs = gain.rolling(14).mean() /
loss.rolling(14).mean()` elementwise, then `100 - (100 / (1 + rs))`. -/
def rsiList (c : List ℚ) : List FloatVal :=
  List.zipWith (fun a b => rsiStep (fdiv a b))
    (rollingMeanQ 14 (gains c)) (rollingMeanQ 14 (losses c))

/-- The three scalar indicator values of lines 168-189:
`None` models the Python `None` of the insufficient-data branches. -/
structure Indicators where
  ma20_value : Option FloatVal
  ma50_value : Option FloatVal
  rsi_val : Option FloatVal
deriving DecidableEq

/-- Lines 168-189: each indicator value is the last cell (`.iloc[-1]`) of
its derived series when the length guard passes, `None` otherwise. -/
def computeIndicators (c : List ℚ) : Indicators :=
  { ma20_value := if 20 ≤ c.length then (movingAverage 20 c).getLast? else none
    ma50_value := if 50 ≤ c.length then (movingAverage 50 c).getLast? else none
    rsi_val := if 14 ≤ c.length then (rsiList c).getLast? else none }

/-- The fetched dataframe: the five OHLCV columns, plus the three derived
columns which are absent (`none`) until the indicator block assigns them. -/
structure DataFrame where
  Open : List ℚ
  High : List ℚ
  Low : List ℚ
  Close : List ℚ
  Volume : List ℚ
  MA20 : Option (List FloatVal) := none
  MA50 : Option (List FloatVal) := none
  RSI : Option (List FloatVal) := none

/-- The indicator block of lines 166-189 as a state transformer on the
dataframe: each guarded branch assigns a derived column to `df` and reads
its last cell, the else-branch leaves the scalar `None`. -/
def technicalIndicators (df : DataFrame) : DataFrame × Indicators :=
  let d1 := if 20 ≤ df.Close.length
    then { df with MA20 := some (movingAverage 20 df.Close) } else df
  let ma20_value := if 20 ≤ df.Close.length then (d1.MA20.getD []).getLast? else none
  let d2 := if 50 ≤ d1.Close.length
    then { d1 with MA50 := some (movingAverage 50 d1.Close) } else d1
  let ma50_value := if 50 ≤ d1.Close.length then (d2.MA50.getD []).getLast? else none
  let d3 := if 14 ≤ d2.Close.length
    then { d2 with RSI := some (rsiList d2.Close) } else d2
  let rsi_val := if 14 ≤ d2.Close.length then (d3.RSI.getD []).getLast? else none
  (d3, { ma20_value := ma20_value, ma50_value := ma50_value, rsi_val := rsi_val })

/-- Python truthiness of an indicator cell: `None` and `0.0` are falsy;
NaN and the infinities are truthy. -/
def fTruthy : FloatVal → Bool
  | .fin q => q ≠ 0
  | _ => true

/-- What one indicator column of lines 192-211 shows. -/
inductive Display where
  | metric : FloatVal → Display
  | insufficient : Display
deriving DecidableEq

/-- `if value: st.metric(...) else: st.info("...: Insufficient data")`
(lines 195-211): the value is shown iff it is truthy. -/
def displayIndicator : Option FloatVal → Display
  | none => .insufficient
  | some v => if fTruthy v then .metric v else .insufficient

/-! ## The specification's account of the algorithms

These definitions follow the wording of the specification (section 4.1
and the claims built on it), to be compared with the embedded code. -/

/-- The spec's gain at difference index `j`: the day-over-day close
difference `Close[j] - Close[j-1]` when positive, 0 otherwise
(meaningful for `1 ≤ j < len`). -/
def specGainAt (c : List ℚ) (j : ℕ) : ℚ :=
  if c.getD (j - 1) 0 < c.getD j 0 then c.getD j 0 - c.getD (j - 1) 0 else 0

/-- The spec's loss at difference index `j`: the absolute value of the
day-over-day close difference when negative, 0 otherwise. -/
def specLossAt (c : List ℚ) (j : ℕ) : ℚ :=
  if c.getD j 0 < c.getD (j - 1) 0 then c.getD (j - 1) 0 - c.getD j 0 else 0

/-- The spec's 14-period rolling mean of gains ending at index `i`:
the mean of the gains at difference indices `i-13 … i`. -/
def specMeanGain (c : List ℚ) (i : ℕ) : ℚ :=
  (∑ j ∈ Finset.Icc (i - 13) i, specGainAt c j) / 14

/-- The spec's 14-period rolling mean of losses ending at index `i`. -/
def specMeanLoss (c : List ℚ) (i : ℕ) : ℚ :=
  (∑ j ∈ Finset.Icc (i - 13) i, specLossAt c j) / 14

/-- The RSI series exactly as the claim words it: `RS = meanGain /
meanLoss`, `RSI = 100 - 100/(1+RS)`, undefined at every index `i < 14`
(the division is read in the same exact-value IEEE arithmetic the
program uses, the claim fixing no other convention for a zero mean). -/
def specRSI (c : List ℚ) (i : ℕ) : FloatVal :=
  if 14 ≤ i ∧ i < c.length then
    rsiStep (fdiv (.fin (specMeanGain c i)) (.fin (specMeanLoss c i)))
  else .nan

/-! ## Concrete close series used as witnesses and counterexamples -/

/-- A strictly increasing 14-day close series. -/
def incList : List ℚ := [31, 32, 33, 34, 35, 36, 37, 38, 39, 40, 41, 42, 43, 44]

/-- A 15-day close series (one more day appended to `incList`). -/
def wit15 : List ℚ := [31, 32, 33, 34, 35, 36, 37, 38, 39, 40, 41, 42, 43, 44, 43]

/-- A flat 20-day close series with all closes equal to 5. -/
def fiveList : List ℚ :=
  [5, 5, 5, 5, 5, 5, 5, 5, 5, 5, 5, 5, 5, 5, 5, 5, 5, 5, 5, 5]

/-- A constant 15-day close series: every difference is 0, so both
rolling means are 0 from index 13 on. -/
def flatList : List ℚ :=
  [100, 100, 100, 100, 100, 100, 100, 100, 100, 100, 100, 100, 100, 100, 100]

/-- A strictly decreasing 14-day close series. -/
def decList : List ℚ := [44, 43, 42, 41, 40, 39, 38, 37, 36, 35, 34, 33, 32, 31]

/-! ## Basic lemmas on the series combinators -/

theorem getD_range_map {α : Type} (f : ℕ → α) (n i : ℕ) (h : i < n) (d : α) :
    ((List.range n).map f).getD i d = f i := by
  simp [List.getD_eq_getElem?_getD, List.getElem?_map, List.getElem?_range, h]

theorem getD_range_map_of_ge {α : Type} (f : ℕ → α) (n i : ℕ) (h : n ≤ i) (d : α) :
    ((List.range n).map f).getD i d = d := by
  rw [List.getD_eq_getElem?_getD, List.getElem?_eq_none (by simpa using h)]
  rfl

theorem diffO_length (c : List ℚ) : (diffO c).length = c.length := by
  simp [diffO]

theorem gains_length (c : List ℚ) : (gains c).length = c.length := by
  simp [gains, diffO_length]

theorem losses_length (c : List ℚ) : (losses c).length = c.length := by
  simp [losses, diffO_length]

theorem rollingMeanQ_length (w : ℕ) (xs : List ℚ) :
    (rollingMeanQ w xs).length = xs.length := by
  simp [rollingMeanQ]

theorem movingAverage_length (w : ℕ) (c : List ℚ) :
    (movingAverage w c).length = c.length := rollingMeanQ_length w c

theorem rsiList_length (c : List ℚ) : (rsiList c).length = c.length := by
  simp [rsiList, List.length_zipWith, rollingMeanQ_length, gains_length, losses_length]

theorem gains_getD (c : List ℚ) (i : ℕ) (h : i < c.length) :
    (gains c).getD i 0 =
      if i = 0 then 0
      else if 0 < c.getD i 0 - c.getD (i - 1) 0
        then c.getD i 0 - c.getD (i - 1) 0 else 0 := by
  rw [gains, diffO, List.map_map, getD_range_map _ _ _ h]
  by_cases h0 : i = 0 <;> simp [h0]

theorem losses_getD (c : List ℚ) (i : ℕ) (h : i < c.length) :
    (losses c).getD i 0 =
      if i = 0 then 0
      else if c.getD i 0 - c.getD (i - 1) 0 < 0
        then -(c.getD i 0 - c.getD (i - 1) 0) else 0 := by
  rw [losses, diffO, List.map_map, getD_range_map _ _ _ h]
  by_cases h0 : i = 0 <;> simp [h0]

theorem gains_getD_nonneg (c : List ℚ) (i : ℕ) : 0 ≤ (gains c).getD i 0 := by
  by_cases h : i < c.length
  · rw [gains_getD c i h]
    split_ifs with h0 h1
    · exact le_refl 0
    · exact le_of_lt h1
    · exact le_refl 0
  · rw [gains, diffO, List.map_map,
      getD_range_map_of_ge _ _ _ (le_of_not_lt h)]

theorem losses_getD_nonneg (c : List ℚ) (i : ℕ) : 0 ≤ (losses c).getD i 0 := by
  by_cases h : i < c.length
  · rw [losses_getD c i h]
    split_ifs with h0 h1
    · exact le_refl 0
    · linarith
    · exact le_refl 0
  · rw [losses, diffO, List.map_map,
      getD_range_map_of_ge _ _ _ (le_of_not_lt h)]

theorem rollingMeanQ_getD (w : ℕ) (xs : List ℚ) (i : ℕ) (h : i < xs.length) :
    (rollingMeanQ w xs).getD i .nan =
      if i + 1 < w then .nan else .fin (windowSum xs i w / w) := by
  rw [rollingMeanQ, getD_range_map _ _ _ h]

theorem list_range_map_sum (f : ℕ → ℚ) (w : ℕ) :
    ((List.range w).map f).sum = ∑ k ∈ Finset.range w, f k := by
  induction w with
  | zero => simp
  | succ n ih =>
      rw [List.range_succ, List.map_append, List.sum_append, Finset.sum_range_succ, ih]
      simp

theorem windowSum_eq_range_sum (xs : List ℚ) (i w : ℕ) :
    windowSum xs i w = ∑ k ∈ Finset.range w, xs.getD (i + 1 - w + k) 0 := by
  rw [windowSum, list_range_map_sum]

theorem windowSum_gains_nonneg (c : List ℚ) (i w : ℕ) :
    0 ≤ windowSum (gains c) i w := by
  apply List.sum_nonneg
  intro x hx
  obtain ⟨k, _, rfl⟩ := List.mem_map.mp hx
  exact gains_getD_nonneg c _

theorem windowSum_losses_nonneg (c : List ℚ) (i w : ℕ) :
    0 ≤ windowSum (losses c) i w := by
  apply List.sum_nonneg
  intro x hx
  obtain ⟨k, _, rfl⟩ := List.mem_map.mp hx
  exact losses_getD_nonneg c _

theorem rsiList_getD (c : List ℚ) (i : ℕ) (h : i < c.length) :
    (rsiList c).getD i .nan =
      rsiStep (fdiv ((rollingMeanQ 14 (gains c)).getD i .nan)
                    ((rollingMeanQ 14 (losses c)).getD i .nan)) := by
  have h1 : i < (rollingMeanQ 14 (gains c)).length := by
    rw [rollingMeanQ_length, gains_length]; exact h
  have h2 : i < (rollingMeanQ 14 (losses c)).length := by
    rw [rollingMeanQ_length, losses_length]; exact h
  rw [rsiList, List.getD_eq_getElem?_getD, List.getElem?_zipWith,
    List.getElem?_eq_getElem h1, List.getElem?_eq_getElem h2,
    List.getD_eq_getElem?_getD, List.getD_eq_getElem?_getD,
    List.getElem?_eq_getElem h1, List.getElem?_eq_getElem h2]
  rfl

/-- The leading cells of the RSI series: NaN while the 14-cell rolling
windows are incomplete, i.e. at indices `i < 13`. -/
theorem rsiList_getD_of_lt (c : List ℚ) (i : ℕ) (h : i < c.length) (h13 : i < 13) :
    (rsiList c).getD i .nan = .nan := by
  rw [rsiList_getD c i h, rollingMeanQ_getD _ _ _ (by rwa [gains_length]),
    rollingMeanQ_getD _ _ _ (by rwa [losses_length]),
    if_pos (by omega), if_pos (by omega)]
  rfl

/-- From index 13 on, the RSI cell is the formula applied to the two
rolling means of the current 14-cell windows. -/
theorem rsiList_getD_of_ge (c : List ℚ) (i : ℕ) (h : i < c.length) (h13 : 13 ≤ i) :
    (rsiList c).getD i .nan =
      rsiStep (fdiv (.fin (windowSum (gains c) i 14 / 14))
                    (.fin (windowSum (losses c) i 14 / 14))) := by
  rw [rsiList_getD c i h, rollingMeanQ_getD _ _ _ (by rwa [gains_length]),
    rollingMeanQ_getD _ _ _ (by rwa [losses_length]),
    if_neg (by omega), if_neg (by omega)]
  norm_num

theorem rsiStep_nan : rsiStep .nan = .nan := rfl

theorem rsiStep_pinf : rsiStep .pinf = .fin 100 := by
  show FloatVal.fin (100 + -0) = .fin 100
  norm_num

theorem rsiStep_fin (x : ℚ) (hx : 0 ≤ x) :
    rsiStep (.fin x) = .fin (100 - 100 / (1 + x)) := by
  have hne : (1 : ℚ) + x ≠ 0 := by positivity
  rw [rsiStep]
  show fsub (.fin 100) (fdiv (.fin 100) (.fin (1 + x))) = _
  rw [fdiv, if_neg hne]
  show FloatVal.fin (100 + -(100 / (1 + x))) = _
  ring_nf

/-- The quotient cell `rs = meanGain / meanLoss` when the loss mean is a
strictly positive finite value. -/
theorem fdiv_fin_pos (g l : ℚ) (hl : 0 < l) :
    fdiv (.fin g) (.fin l) = .fin (g / l) := by
  rw [fdiv, if_neg (ne_of_gt hl)]

/-- The RSI formula on a nonnegative finite relative strength is bounded
in [0, 100]. -/
theorem rsi_formula_bounds (x : ℚ) (hx : 0 ≤ x) :
    0 ≤ 100 - 100 / (1 + x) ∧ 100 - 100 / (1 + x) ≤ 100 := by
  have h1 : (0 : ℚ) < 1 + x := by positivity
  constructor
  · have : 100 / (1 + x) ≤ 100 := by
      rw [div_le_iff₀ h1]
      nlinarith
    linarith
  · have : 0 < 100 / (1 + x) := by positivity
    linarith

/-! ## Bridges between window sums and indexed interval sums -/

theorem windowSum_eq_Icc (xs : List ℚ) (i : ℕ) (h13 : 13 ≤ i) :
    windowSum xs i 14 = ∑ j ∈ Finset.Icc (i - 13) i, xs.getD j 0 := by
  rw [windowSum_eq_range_sum, ← Nat.Ico_succ_right, Finset.sum_Ico_eq_sum_range,
    show i + 1 - (i - 13) = 14 from by omega,
    show i + 1 - 14 = i - 13 from by omega]

theorem windowSum_eq_Icc_general (xs : List ℚ) (i w : ℕ) (hw : w ≤ i + 1) :
    windowSum xs i w = ∑ j ∈ Finset.Icc (i + 1 - w) i, xs.getD j 0 := by
  rw [windowSum_eq_range_sum, ← Nat.Ico_succ_right, Finset.sum_Ico_eq_sum_range]
  have hww : i + 1 - (i + 1 - w) = w := by omega
  rw [hww]

theorem gains_getD_eq_spec (c : List ℚ) (j : ℕ) (h1 : 1 ≤ j) (h2 : j < c.length) :
    (gains c).getD j 0 = specGainAt c j := by
  rw [gains_getD c j h2, specGainAt, if_neg (by omega)]
  rcases lt_trichotomy (c.getD (j - 1) 0) (c.getD j 0) with hlt | heq | hgt
  · rw [if_pos (by linarith), if_pos hlt]
  · rw [heq]; simp
  · rw [if_neg (by linarith), if_neg (by linarith)]

theorem losses_getD_eq_spec (c : List ℚ) (j : ℕ) (h1 : 1 ≤ j) (h2 : j < c.length) :
    (losses c).getD j 0 = specLossAt c j := by
  rw [losses_getD c j h2, specLossAt, if_neg (by omega)]
  rcases lt_trichotomy (c.getD j 0) (c.getD (j - 1) 0) with hlt | heq | hgt
  · rw [if_pos (by linarith), if_pos hlt]; ring
  · rw [heq]; simp
  · rw [if_neg (by linarith), if_neg (by linarith)]

theorem gains_getD_zero (c : List ℚ) (h : 0 < c.length) :
    (gains c).getD 0 0 = 0 := by
  rw [gains_getD c 0 h]; simp

theorem losses_getD_zero (c : List ℚ) (h : 0 < c.length) :
    (losses c).getD 0 0 = 0 := by
  rw [losses_getD c 0 h]; simp

/-- For `14 ≤ i < len`, the code's gain-window sum is the spec's: every
difference index in the window is a real one (`j ≥ 1`). -/
theorem windowSum_gains_eq_spec (c : List ℚ) (i : ℕ) (h14 : 14 ≤ i) (h : i < c.length) :
    windowSum (gains c) i 14 = ∑ j ∈ Finset.Icc (i - 13) i, specGainAt c j := by
  rw [windowSum_eq_Icc _ _ (by omega)]
  apply Finset.sum_congr rfl
  intro j hj
  rw [Finset.mem_Icc] at hj
  exact gains_getD_eq_spec c j (by omega) (by omega)

theorem windowSum_losses_eq_spec (c : List ℚ) (i : ℕ) (h14 : 14 ≤ i) (h : i < c.length) :
    windowSum (losses c) i 14 = ∑ j ∈ Finset.Icc (i - 13) i, specLossAt c j := by
  rw [windowSum_eq_Icc _ _ (by omega)]
  apply Finset.sum_congr rfl
  intro j hj
  rw [Finset.mem_Icc] at hj
  exact losses_getD_eq_spec c j (by omega) (by omega)

/-! ## Claim C1: the RSI algorithm -/

theorem sum_gains_Icc_eq_spec (c : List ℚ) (h : 14 ≤ c.length) :
    ∑ j ∈ Finset.Icc 1 13, (gains c).getD j 0 = ∑ j ∈ Finset.Icc 1 13, specGainAt c j :=
  Finset.sum_congr rfl fun j hj =>
    gains_getD_eq_spec c j (Finset.mem_Icc.mp hj).1
      (by have := (Finset.mem_Icc.mp hj).2; omega)

theorem sum_losses_Icc_eq_spec (c : List ℚ) (h : 14 ≤ c.length) :
    ∑ j ∈ Finset.Icc 1 13, (losses c).getD j 0 = ∑ j ∈ Finset.Icc 1 13, specLossAt c j :=
  Finset.sum_congr rfl fun j hj =>
    losses_getD_eq_spec c j (Finset.mem_Icc.mp hj).1
      (by have := (Finset.mem_Icc.mp hj).2; omega)

/-- **C1 (amended).** For every close series of length ≥ 14 the RSI series
follows the spec's algorithm at every index `i ≥ 14` (differences, gains,
losses, 14-period rolling means, `RS = meanGain/meanLoss`,
`RSI = 100 - 100/(1+RS)`), but the undefined prefix is `i < 13`, not
`i < 14`: at index 13 the code already produces a value, in which the
day-0 cell of `diff` (a NaN replaced by 0 by `where`) enters the two
window means as a zero gain and a zero loss, so that only the 13 real
differences are summed yet the sums are still divided by 14. -/
theorem rsi_code_characterization (c : List ℚ) (h : 14 ≤ c.length) :
    (∀ i, i < 13 → (rsiList c).getD i .nan = .nan) ∧
    (∀ i, 14 ≤ i → i < c.length → (rsiList c).getD i .nan = specRSI c i) ∧
    ((rsiList c).getD 13 .nan =
      rsiStep (fdiv (.fin ((∑ j ∈ Finset.Icc 1 13, specGainAt c j) / 14))
               (.fin ((∑ j ∈ Finset.Icc 1 13, specLossAt c j) / 14)))) := by
  refine ⟨fun i hi => rsiList_getD_of_lt c i (by omega) hi, fun i h14 hi => ?_, ?_⟩
  · rw [rsiList_getD_of_ge c i hi (by omega), specRSI, if_pos ⟨h14, hi⟩,
      specMeanGain, specMeanLoss, windowSum_gains_eq_spec c i h14 hi,
      windowSum_losses_eq_spec c i h14 hi]
  · rw [rsiList_getD_of_ge c 13 (by omega) (by omega),
      windowSum_eq_Icc _ _ (by omega), windowSum_eq_Icc _ _ (by omega),
      show Finset.Icc (13 - 13 : ℕ) 13 = insert 0 (Finset.Icc 1 13) from by decide,
      Finset.sum_insert (by decide), Finset.sum_insert (by decide),
      gains_getD_zero c (by omega), losses_getD_zero c (by omega), zero_add, zero_add,
      sum_gains_Icc_eq_spec c h, sum_losses_Icc_eq_spec c h]

/-- **C1, counterexample.** On the strictly increasing 14-day series
`incList` the code's RSI at index 13 is the defined value 100, although
the claim asserts the RSI is undefined at every index `i < 14`. -/
theorem rsi_defined_at_13_counterexample :
    13 < 14 ∧ (rsiList incList).getD 13 .nan = .fin 100 ∧
      FloatVal.fin 100 ≠ FloatVal.nan := by
  refine ⟨by norm_num, ?_, by simp⟩
  have hlen : incList.length = 14 := by simp [incList]
  have hr : List.range 14 = [0, 1, 2, 3, 4, 5, 6, 7, 8, 9, 10, 11, 12, 13] := rfl
  rw [rsiList_getD_of_ge incList 13 (by omega) (by omega)]
  have hg : windowSum (gains incList) 13 14 = 13 := by
    rw [windowSum]
    norm_num [gains, diffO, incList, hr]
  have hl : windowSum (losses incList) 13 14 = 0 := by
    rw [windowSum]
    norm_num [losses, diffO, incList, hr]
  rw [hg, hl]
  norm_num [fdiv]
  exact rsiStep_pinf

/-- Witness for `rsi_code_characterization` at the concrete series `wit15`. -/
theorem rsi_code_characterization_witness :
    (rsiList wit15).getD 0 .nan = .nan ∧
    (rsiList wit15).getD 14 .nan = specRSI wit15 14 := by
  have h := rsi_code_characterization wit15 (by simp [wit15])
  exact ⟨h.1 0 (by omega), h.2.1 14 (by omega) (by simp [wit15])⟩

/-! ## Claim C2: the moving averages -/

/-- **C2 (confirmed).** For every window `W > 0` (the program instantiates
`W = 20` and `W = 50`) and every close series with at least `W` cells, the
moving-average cell at an index `i ≥ W-1` is the arithmetic mean of the
close prices at indices `i-W+1 … i`, and the cell is undefined (NaN) at
every index `i < W-1`. -/
theorem ma_rolling_mean (W : ℕ) (hW : 0 < W) (c : List ℚ) (hlen : W ≤ c.length)
    (i : ℕ) (hi : i < c.length) :
    (W - 1 ≤ i → (movingAverage W c).getD i .nan =
      .fin ((∑ j ∈ Finset.Icc (i + 1 - W) i, c.getD j 0) / W)) ∧
    (i < W - 1 → (movingAverage W c).getD i .nan = .nan) := by
  constructor
  · intro hWi
    rw [movingAverage, rollingMeanQ_getD _ _ _ hi, if_neg (by omega),
      windowSum_eq_Icc_general c i W (by omega)]
  · intro hWi
    rw [movingAverage, rollingMeanQ_getD _ _ _ hi, if_pos (by omega)]

/-- Witness for `ma_rolling_mean` with `W = 20` on `fiveList`: the MA20
cell at index 19 is the mean 5, and the cell at index 0 is NaN. -/
theorem ma_rolling_mean_witness :
    (movingAverage 20 fiveList).getD 19 .nan = .fin 5 ∧
    (movingAverage 20 fiveList).getD 0 .nan = .nan := by
  have hlen : fiveList.length = 20 := by simp [fiveList]
  have h19 := ma_rolling_mean 20 (by norm_num) fiveList (by omega) 19 (by omega)
  have h0 := ma_rolling_mean 20 (by norm_num) fiveList (by omega) 0 (by omega)
  refine ⟨?_, h0.2 (by norm_num)⟩
  rw [h19.1 (by norm_num)]
  have hr : List.range 20 =
      [0, 1, 2, 3, 4, 5, 6, 7, 8, 9, 10, 11, 12, 13, 14, 15, 16, 17, 18, 19] := rfl
  rw [show (19 + 1 - 20 : ℕ) = 0 from rfl, ← Nat.Ico_succ_right,
    ← Finset.range_eq_Ico, ← list_range_map_sum, hr]
  norm_num [fiveList]

/-! ## Claim C3: the zero-loss-mean case -/

/-- **C3, evidence of the defect.** On the constant series the 14-period
rolling mean of losses at index 14 is the finite value 0, yet the RSI
cell there is NaN: the unguarded `rs = gain / loss` evaluates `0 / 0`.
The claim's guarded/clamped boundary value is not what the code
produces. -/
theorem rsi_flat_nan :
    (rollingMeanQ 14 (losses flatList)).getD 14 .nan = .fin 0 ∧
    (rsiList flatList).getD 14 .nan = .nan := by
  have hlen : flatList.length = 15 := by simp [flatList]
  have hr : List.range 14 = [0, 1, 2, 3, 4, 5, 6, 7, 8, 9, 10, 11, 12, 13] := rfl
  have hl : windowSum (losses flatList) 14 14 = 0 := by
    rw [windowSum]
    norm_num [losses, diffO, flatList, hr]
  have hg : windowSum (gains flatList) 14 14 = 0 := by
    rw [windowSum]
    norm_num [gains, diffO, flatList, hr]
  constructor
  · rw [rollingMeanQ_getD _ _ _ (by rw [losses_length]; omega), if_neg (by omega), hl]
    norm_num
  · rw [rsiList_getD_of_ge flatList 14 (by omega) (by omega), hg, hl]
    norm_num [fdiv]
    exact rsiStep_nan

/-! ## Claim C4: RSI is bounded when the loss mean is positive -/

/-- **C4 (confirmed).** At every index where the 14-period rolling mean
of losses is a strictly positive (finite) value, the RSI cell is a
finite value lying in the closed interval [0, 100]. -/
theorem rsi_bounded (c : List ℚ) (i : ℕ) (l : ℚ)
    (hmean : (rollingMeanQ 14 (losses c)).getD i .nan = .fin l)
    (hl : 0 < l) (hi : i < c.length) :
    ∃ q, (rsiList c).getD i .nan = .fin q ∧ 0 ≤ q ∧ q ≤ 100 := by
  have hi' : i < (losses c).length := by rwa [losses_length]
  rw [rollingMeanQ_getD _ _ _ hi'] at hmean
  by_cases h14 : i + 1 < 14
  · rw [if_pos h14] at hmean
    exact absurd hmean (by simp)
  · rw [if_neg h14] at hmean
    have hleq : windowSum (losses c) i 14 / 14 = l := by
      injection hmean
    have hg : 0 ≤ windowSum (gains c) i 14 / 14 := by
      have := windowSum_gains_nonneg c i 14
      positivity
    rw [rsiList_getD_of_ge c i hi (by omega), hleq,
      fdiv_fin_pos _ _ hl, rsiStep_fin _ (div_nonneg hg hl.le)]
    exact ⟨_, rfl, rsi_formula_bounds _ (div_nonneg hg hl.le)⟩

/-- Witness for `rsi_bounded` on `decList` at index 13, where the rolling
mean of losses is the positive value 13/14. -/
theorem rsi_bounded_witness :
    ∃ q, (rsiList decList).getD 13 .nan = .fin q ∧ 0 ≤ q ∧ q ≤ 100 := by
  have hlen : decList.length = 14 := by simp [decList]
  have hr : List.range 14 = [0, 1, 2, 3, 4, 5, 6, 7, 8, 9, 10, 11, 12, 13] := rfl
  refine rsi_bounded decList 13 (13 / 14) ?_ (by norm_num) (by omega)
  rw [rollingMeanQ_getD _ _ _ (by rw [losses_length]; omega), if_neg (by omega)]
  have hl : windowSum (losses decList) 13 14 = 13 := by
    rw [windowSum]
    norm_num [losses, diffO, decList, hr]
  rw [hl]
  norm_num

/-! ## Claim C8: a strictly decreasing series drives RSI to 0 -/

/-- **C8 (confirmed).** For every strictly decreasing close series of
length at least 14, the RSI at the last index is the finite value 0:
every gain is 0, so the gain mean is 0, the loss mean is positive, and
`100 - 100/(1+0) = 0`. -/
theorem rsi_decreasing_zero (c : List ℚ) (hlen : 14 ≤ c.length)
    (hdec : ∀ i, i + 1 < c.length → c.getD (i + 1) 0 < c.getD i 0) :
    (rsiList c).getLast? = some (.fin 0) := by
  have h13 : 13 ≤ c.length - 1 := by omega
  have hidx : c.length - 1 < c.length := by omega
  have hg : windowSum (gains c) (c.length - 1) 14 = 0 := by
    rw [windowSum_eq_Icc _ _ h13]
    apply Finset.sum_eq_zero
    intro j hj
    rw [Finset.mem_Icc] at hj
    by_cases hj0 : j = 0
    · subst hj0; exact gains_getD_zero c (by omega)
    · rw [gains_getD c j (by omega), if_neg hj0]
      have hd := hdec (j - 1) (by omega)
      rw [show j - 1 + 1 = j from by omega] at hd
      rw [if_neg (by linarith)]
  have hlpos : 0 < windowSum (losses c) (c.length - 1) 14 := by
    rw [windowSum_eq_Icc _ _ h13]
    refine Finset.sum_pos' (fun j _ => losses_getD_nonneg c j) ⟨c.length - 1, ?_, ?_⟩
    · rw [Finset.mem_Icc]; omega
    · have hd := hdec (c.length - 2) (by omega)
      rw [show c.length - 2 + 1 = c.length - 1 from by omega] at hd
      rw [losses_getD c _ (by omega), if_neg (by omega),
        show c.length - 1 - 1 = c.length - 2 from by omega, if_pos (by linarith)]
      linarith
  have hval : (rsiList c).getD (c.length - 1) .nan = .fin 0 := by
    rw [rsiList_getD_of_ge c _ hidx h13, hg, zero_div,
      fdiv_fin_pos _ _ (by positivity), zero_div, rsiStep_fin 0 le_rfl]
    norm_num
  have hlt : c.length - 1 < (rsiList c).length := by rw [rsiList_length]; omega
  rw [List.getLast?_eq_getElem? _, rsiList_length,
    List.getElem?_eq_getElem hlt, ← hval, List.getD_eq_getElem?_getD,
    List.getElem?_eq_getElem hlt]
  rfl

/-- Witness for `rsi_decreasing_zero` on the concrete decreasing series
`decList`. -/
theorem rsi_decreasing_zero_witness :
    (rsiList decList).getLast? = some (.fin 0) := by
  have hlen : decList.length = 14 := by simp [decList]
  refine rsi_decreasing_zero decList (by omega) ?_
  intro i hi
  have hi13 : i < 13 := by omega
  interval_cases i <;> norm_num [decList]

/-! ## Claims C5, C6: insufficient data is per-indicator -/

theorem getD_eq_getElem_of_lt {α : Type} (l : List α) (i : ℕ) (d : α)
    (h : i < l.length) : l.getD i d = l[i] := by
  rw [List.getD_eq_getElem?_getD, List.getElem?_eq_getElem h]
  rfl

theorem getLast?_ne_none {α : Type} (l : List α) (h : 0 < l.length) :
    l.getLast? ≠ none := by
  intro hc
  rw [List.getLast?_eq_getElem? _, List.getElem?_eq_getElem (by omega)] at hc
  simp at hc

/-- **C5 (confirmed).** An indicator's value is `None` ("insufficient
data") exactly when the series is shorter than that indicator's own
window; a moving average over a too-short series is undefined at every
index; and on a series long enough for MA20 and RSI but not MA50, only
MA50 reports insufficient data while the other two are still computed —
one indicator's insufficiency never fails the rest. -/
theorem insufficient_data_isolated (c : List ℚ) :
    ((computeIndicators c).ma20_value = none ↔ c.length < 20) ∧
    ((computeIndicators c).ma50_value = none ↔ c.length < 50) ∧
    ((computeIndicators c).rsi_val = none ↔ c.length < 14) ∧
    (∀ W, c.length < W → ∀ i, i < c.length →
      (movingAverage W c).getD i .nan = .nan) ∧
    (c.length < 50 → 20 ≤ c.length →
      displayIndicator (computeIndicators c).ma50_value = .insufficient ∧
      (computeIndicators c).ma20_value ≠ none ∧
      (computeIndicators c).rsi_val ≠ none) := by
  have key : ∀ w : ℕ, 0 < w → ∀ l : List FloatVal, l.length = c.length →
      ((if w ≤ c.length then l.getLast? else none) = none ↔ c.length < w) := by
    intro w hw l hl
    by_cases hcw : w ≤ c.length
    · rw [if_pos hcw]
      constructor
      · intro hn
        exact absurd hn (getLast?_ne_none l (by omega))
      · intro hlt
        exact absurd hlt (by omega)
    · rw [if_neg hcw]
      simp only [true_iff]
      omega
  refine ⟨?_, ?_, ?_, ?_, ?_⟩
  · simpa [computeIndicators] using key 20 (by norm_num) _ (movingAverage_length 20 c)
  · simpa [computeIndicators] using key 50 (by norm_num) _ (movingAverage_length 50 c)
  · simpa [computeIndicators] using key 14 (by norm_num) _ (rsiList_length c)
  · intro W hW i hi
    rw [movingAverage, rollingMeanQ_getD _ _ _ hi, if_pos (by omega)]
  · intro h50 h20
    refine ⟨?_, ?_, ?_⟩
    · show displayIndicator
        (if 50 ≤ c.length then (movingAverage 50 c).getLast? else none) = _
      rw [if_neg (by omega)]
      rfl
    · show (if 20 ≤ c.length then (movingAverage 20 c).getLast? else none) ≠ none
      rw [if_pos h20]
      exact getLast?_ne_none _ (by rw [movingAverage_length]; omega)
    · show (if 14 ≤ c.length then (rsiList c).getLast? else none) ≠ none
      rw [if_pos (by omega)]
      exact getLast?_ne_none _ (by rw [rsiList_length]; omega)

/-- Witness for `insufficient_data_isolated` on a 30-day series: MA50
alone reports insufficient data; MA20 and RSI are computed. -/
theorem insufficient_data_isolated_witness :
    (computeIndicators (List.replicate 30 (7 : ℚ))).ma50_value = none ∧
    displayIndicator (computeIndicators (List.replicate 30 (7 : ℚ))).ma50_value
      = .insufficient ∧
    (computeIndicators (List.replicate 30 (7 : ℚ))).ma20_value ≠ none ∧
    (computeIndicators (List.replicate 30 (7 : ℚ))).rsi_val ≠ none ∧
    (movingAverage 50 (List.replicate 30 (7 : ℚ))).getD 0 .nan = .nan := by
  have h := insufficient_data_isolated (List.replicate 30 (7 : ℚ))
  have hlen : (List.replicate 30 (7 : ℚ)).length = 30 := by simp
  refine ⟨h.2.1.mpr (by omega), ?_, ?_, ?_, ?_⟩
  · exact (h.2.2.2.2 (by omega) (by omega)).1
  · exact (h.2.2.2.2 (by omega) (by omega)).2.1
  · exact (h.2.2.2.2 (by omega) (by omega)).2.2
  · exact h.2.2.2.1 50 (by omega) 0 (by omega)

/-- **C6 (confirmed).** On an empty series every indicator value is
`None` and each of the three columns displays "Insufficient data"; the
computation is total, so nothing is thrown. -/
theorem empty_series_insufficient :
    computeIndicators ([] : List ℚ) = ⟨none, none, none⟩ ∧
    displayIndicator (computeIndicators ([] : List ℚ)).ma20_value = .insufficient ∧
    displayIndicator (computeIndicators ([] : List ℚ)).ma50_value = .insufficient ∧
    displayIndicator (computeIndicators ([] : List ℚ)).rsi_val = .insufficient :=
  ⟨rfl, rfl, rfl, rfl⟩

/-! ## Claim C7: derived series keep the source length, with an
undefined (not zero) prefix -/

/-- **C7 (confirmed).** Each derived series has exactly the length of the
close series, and its cells are NaN — undefined, not zero and not
extrapolated — at every index before the first full window (the first
W-1 cells for a W-day moving average; the first 13 cells for the RSI). -/
theorem derived_series_invariant (c : List ℚ) :
    (movingAverage 20 c).length = c.length ∧
    (movingAverage 50 c).length = c.length ∧
    (rsiList c).length = c.length ∧
    (∀ i, i < 19 → (movingAverage 20 c).getD i .nan = .nan) ∧
    (∀ i, i < 49 → (movingAverage 50 c).getD i .nan = .nan) ∧
    (∀ i, i < 13 → (rsiList c).getD i .nan = .nan) ∧
    FloatVal.nan ≠ .fin 0 := by
  have hma : ∀ w : ℕ, ∀ i, i + 1 < w → (movingAverage w c).getD i .nan = .nan := by
    intro w i hi
    by_cases hic : i < c.length
    · rw [movingAverage, rollingMeanQ_getD _ _ _ hic, if_pos hi]
    · rw [movingAverage, rollingMeanQ,
        getD_range_map_of_ge _ _ _ (by omega)]
  refine ⟨movingAverage_length 20 c, movingAverage_length 50 c, rsiList_length c,
    fun i hi => hma 20 i (by omega), fun i hi => hma 50 i (by omega),
    fun i hi => ?_, by simp⟩
  by_cases hic : i < c.length
  · exact rsiList_getD_of_lt c i hic hi
  · rw [List.getD_eq_getElem?_getD,
      List.getElem?_eq_none (by rw [rsiList_length]; omega)]
    rfl

/-- Witness for `derived_series_invariant` on the 20-day series
`fiveList`. -/
theorem derived_series_invariant_witness :
    (movingAverage 20 fiveList).length = 20 ∧
    (movingAverage 20 fiveList).getD 0 .nan = .nan ∧
    (movingAverage 50 fiveList).getD 19 .nan = .nan ∧
    (rsiList fiveList).getD 12 .nan = .nan := by
  have h := derived_series_invariant fiveList
  have hlen : fiveList.length = 20 := by simp [fiveList]
  exact ⟨by rw [h.1, hlen], h.2.2.2.1 0 (by omega),
    h.2.2.2.2.1 19 (by omega), h.2.2.2.2.2.1 12 (by omega)⟩

/-! ## Claim C9: the indicator block has no side effects on OHLCV -/

/-- **C9 (confirmed).** The indicator block only adds derived columns:
the five OHLCV columns of the dataframe (hence their lengths) are
unchanged, and the three indicator values are a pure function of the
close column alone — two runs on equal close series give equal
outputs. -/
theorem indicators_pure (df : DataFrame) :
    (technicalIndicators df).1.Close = df.Close ∧
    (technicalIndicators df).1.Open = df.Open ∧
    (technicalIndicators df).1.High = df.High ∧
    (technicalIndicators df).1.Low = df.Low ∧
    (technicalIndicators df).1.Volume = df.Volume ∧
    (technicalIndicators df).2 = computeIndicators df.Close := by
  rw [technicalIndicators, computeIndicators]
  by_cases h20 : 20 ≤ df.Close.length <;> by_cases h50 : 50 ≤ df.Close.length <;>
    by_cases h14 : 14 ≤ df.Close.length <;>
      simp [h20, h50, h14]

/-! ## Claim C10: the display branches on truthiness, not definedness -/

/-- **C10 (confirmed).** The display of an indicator branches on Python
truthiness of the computed value, not on its definedness: a computed
value equal to exactly 0 is reported as "Insufficient data", and a
computed value is displayed if and only if it is present and truthy
(nonzero). -/
theorem display_truthiness (c : List ℚ) :
    ((computeIndicators c).rsi_val = some (.fin 0) →
      displayIndicator (computeIndicators c).rsi_val = .insufficient) ∧
    (∀ v, displayIndicator (computeIndicators c).rsi_val = .metric v ↔
      (computeIndicators c).rsi_val = some v ∧ fTruthy v = true) := by
  constructor
  · intro h
    rw [h]
    simp [displayIndicator, fTruthy]
  · intro v
    cases hv : (computeIndicators c).rsi_val with
    | none => simp [displayIndicator]
    | some w =>
        have hred : displayIndicator (some w)
            = if fTruthy w then Display.metric w else .insufficient := rfl
        by_cases ht : fTruthy w = true
        · rw [hred, if_pos ht]
          constructor
          · intro hm
            cases hm
            exact ⟨rfl, ht⟩
          · rintro ⟨hw, _⟩
            cases hw
            rfl
        · rw [hred, if_neg ht]
          constructor
          · intro hm
            cases hm
          · rintro ⟨hw, hf⟩
            cases hw
            exact absurd hf ht

/-- Witness for `display_truthiness`: on the strictly decreasing series
`decList` the RSI value is computed and equals 0, and the dashboard shows
"Insufficient data" for it. -/
theorem display_truthiness_witness :
    (computeIndicators decList).rsi_val = some (.fin 0) ∧
    displayIndicator (computeIndicators decList).rsi_val = .insufficient := by
  have hlen : decList.length = 14 := by simp [decList]
  have hr : List.range 14 = [0, 1, 2, 3, 4, 5, 6, 7, 8, 9, 10, 11, 12, 13] := rfl
  have hlt : 13 < (rsiList decList).length := by rw [rsiList_length]; omega
  have hgd : (rsiList decList).getD 13 .nan = .fin 0 := by
    rw [rsiList_getD_of_ge decList 13 (by omega) (by omega)]
    have hg0 : windowSum (gains decList) 13 14 = 0 := by
      rw [windowSum]
      norm_num [gains, diffO, decList, hr]
    have hl13 : windowSum (losses decList) 13 14 = 13 := by
      rw [windowSum]
      norm_num [losses, diffO, decList, hr]
    rw [hg0, hl13, zero_div, fdiv_fin_pos _ _ (by norm_num), zero_div,
      rsiStep_fin 0 le_rfl]
    norm_num
  have hval : (computeIndicators decList).rsi_val = some (.fin 0) := by
    show (if 14 ≤ decList.length then (rsiList decList).getLast? else none) = _
    rw [if_pos (by omega), List.getLast?_eq_getElem? _, rsiList_length, hlen,
      List.getElem?_eq_getElem (by omega : 14 - 1 < (rsiList decList).length)]
    rw [getD_eq_getElem_of_lt _ 13 _ hlt] at hgd
    exact congrArg some hgd
  exact ⟨hval, (display_truthiness decList).1 hval⟩
